import Mathlib

/-!
Shallow embedding of the ufo-gleaner lazy glyph object model.

Source files embedded: src/core/provider.rs, src/core/plist.rs,
src/core/font.rs, src/core/gleaner.rs, src/test_utils.rs and
src/bindings/py_font.rs. The error module, the path table and the GLIF
record grammar are not under src/; where a definition depends on them it
is modelled from the spec and marked as such in its doc comment.

Rust shared-mutable state is modelled by explicit state passing: a Font
value carries the index (contents), the name-to-handle cache (glyphs),
and an arena assigning each created Glyph handle an identity (a Nat id)
and its record cache cell, following the arena modelling the spec itself
proposes for the Font/Glyph back-reference cycle.
-/

namespace UfoGleanerModel

/-- Bytes of a file, as read by a provider. -/
abbrev Bytes := List Nat

/-- Association-list lookup, first binding wins (models map lookup). -/
def alookup {α : Type} [DecidableEq α] {β : Type} : List (α × β) → α → Option β
  | [], _ => none
  | (k, v) :: rest, key => if k = key then some v else alookup rest key

/-- Modelled from the spec: the error taxonomy of the error module (not
under src/) as used by the src files: I/O failure, Not-Found, Plist
structural failure, XML failure, generic Parse failure, Missing-Attribute
carrying the requested name, and an Other escape hatch. -/
inductive ErrorKind : Type
  | Io
  | FileNotFound
  | Plist
  | Xml
  | Parse
  | MissingAttribute (name : String)
  | Other
deriving DecidableEq, Repr

/-- Modelled from the spec: an error carries a kind, an optional path and
an optional contextual message. -/
structure Error : Type where
  kind : ErrorKind
  path : Option String
  context : Option String
deriving DecidableEq, Repr

/-- Decoded property-list value, mirroring the external plist crate Value
as matched in src/core/plist.rs: the string and dictionary cases are the
ones inspected; every other variant is collapsed into catch-all cases. -/
inductive PlistValue : Type
  | string (s : String)
  | integer (n : Int)
  | dict (entries : List (String × PlistValue))
  | other

/-- Returns true exactly when the value is a dictionary. -/
def PlistValue.isDict : PlistValue → Bool
  | .dict _ => true
  | _ => false

/-- Modelled from the spec: PathBuf join of a root and a relative path. -/
def pathJoin (root rel : String) : String :=
  if root = "" then rel else root ++ "/" ++ rel

/-- Modelled from the spec: the fixed conventional relative path of the
index file (UfoRelativePath.Contents in the path table, not under src/). -/
def contentsPath : String := "glyphs/contents.plist"

/-- A provider instance: a diagnostic root and a read operation, mirroring
the Provider trait of src/core/provider.rs. -/
structure ProviderM : Type where
  root : String
  read : String → Except Error Bytes

/-- One node of the modelled real filesystem backing a FileProvider: a
readable file, or a present-but-unreadable entry (any non-missing read
failure). -/
inductive FsNode : Type
  | file (data : Bytes)
  | unreadable

/-- Modelled from the spec: the error module (not under src/) converts io
errors raised by std fs; the missing-file case becomes the distinguished
Not-Found kind and any other read failure the generic I/O kind, as the
in-src FileProvider test asserts. -/
def ioErrorToError : Bool → Error
  | true => ⟨ErrorKind.FileNotFound, none, none⟩
  | false => ⟨ErrorKind.Io, none, none⟩

/-- FileProvider::read of src/core/provider.rs: joins the root with the
relative path and reads the file from the filesystem fs, converting io
errors through the error module. -/
def FileProvider.read (fs : List (String × FsNode)) (root : String)
    (rel : String) : Except Error Bytes :=
  let fullPath := pathJoin root rel
  match alookup fs fullPath with
  | none => Except.error (ioErrorToError true)
  | some (FsNode.file data) => Except.ok data
  | some FsNode.unreadable => Except.error (ioErrorToError false)

/-- MockProvider::read of src/test_utils.rs: looks the relative path up in
the in-memory file table and on a miss builds an Io error with a context
message, no path. -/
def MockProvider.read (files : List (String × Bytes)) (rel : String) :
    Except Error Bytes :=
  match alookup files rel with
  | some data => Except.ok data
  | none =>
      Except.error ⟨ErrorKind.Io, none, some ("file not found: " ++ rel)⟩

/-- FileProvider bundled as a provider instance. -/
def FileProvider.provider (fs : List (String × FsNode)) (root : String) :
    ProviderM :=
  ⟨root, FileProvider.read fs root⟩

/-- MockProvider bundled as a provider instance; its root is empty. -/
def MockProvider.provider (files : List (String × Bytes)) : ProviderM :=
  ⟨"", MockProvider.read files⟩

/-- PlistParser::parse_plist of src/core/plist.rs: read the file bytes
through the provider and decode them with the external plist decoder
(decode, a parameter covering Value::from_reader and the error
conversion of the plist error, whose From impl lives in the error module
not under src/). -/
def parse_plist (p : ProviderM) (decode : Bytes → Except Error PlistValue)
    (path : String) : Except Error PlistValue := do
  let data ← p.read path
  decode data

/-- Filter used by parse_contents: keep an entry only when its value is a
string. -/
def stringEntry : String × PlistValue → Option (String × String)
  | (k, PlistValue.string s) => some (k, s)
  | _ => none

/-- parse_contents of src/core/plist.rs: decode contents.plist; require a
dictionary, else fail with a Plist error carrying the path; keep only the
string-valued entries. -/
def parse_contents (p : ProviderM)
    (decode : Bytes → Except Error PlistValue) :
    Except Error (List (String × String)) := do
  let plistValue ← parse_plist p decode contentsPath
  match plistValue with
  | PlistValue.dict entries => pure (entries.filterMap stringEntry)
  | _ =>
      Except.error
        ⟨ErrorKind.Plist, some contentsPath,
          some "contents.plist is not a dictionary"⟩

/-- Modelled from the spec: the advance metrics of a glyph record, an
external shape treated as opaque here. -/
structure Advance : Type where
  width : Int
  height : Int
deriving DecidableEq, Repr

/-- Modelled from the spec: the glyph Record shape (GlifData of the glif
module, not under src/): format-version strings, advance metrics, unicode
scalar list, optional note, optional image reference, guideline list,
anchor list, optional outline, optional library value. The component
shapes beyond the fields the src accessors project are out of scope and
carried as placeholder data. -/
structure GlifData : Type where
  format : String
  format_minor : Option String
  advance : Option Advance
  unicodes : List Nat
  note : Option String
  image : Option String
  guidelines : List String
  anchors : List String
  outline : Option String
  lib : Option String
deriving DecidableEq, Repr

/-- Modelled from the spec: the Record Parser collaborator, consumed only
through its name-in, record-or-error-out contract (parse_glif). -/
def GlifParser : Type := String → Except Error GlifData

/-- One arena slot for a created Glyph handle: the name it was created
under and its once-populated record cache cell (the RefCell of the Rust
Glyph). The back-reference to the owning Font is the arena containment
itself. -/
structure GlyphObj : Type where
  name : String
  cache : Option GlifData
deriving DecidableEq, Repr

/-- Font of src/core/font.rs: the provider root (for diagnostics), the
immutable contents index, the name-to-handle cache, plus the arena of
created Glyph handles and a fresh-id counter giving handles their
identity. -/
structure Font : Type where
  root : String
  contents : List (String × String)
  glyphs : List (String × Nat)
  arena : List (Nat × GlyphObj)
  nextId : Nat
deriving DecidableEq, Repr

/-- Font::new of src/core/font.rs: parse contents.plist through the
provider and start with an empty glyph cache. -/
def Font.new (p : ProviderM) (decode : Bytes → Except Error PlistValue) :
    Except Error Font := do
  let contents ← parse_contents p decode
  pure ⟨p.root, contents, [], [], 0⟩

/-- Font::glyph of src/core/font.rs: return the cached handle for the
name if present, otherwise create and cache a fresh one; always Some. -/
def Font.glyph (s : Font) (name : String) : Option Nat × Font :=
  match alookup s.glyphs name with
  | some id => (some id, s)
  | none =>
      let id := s.nextId
      (some id,
        { s with
          glyphs := (name, id) :: s.glyphs
          arena := (id, ⟨name, none⟩) :: s.arena
          nextId := id + 1 })

/-- One insertion step of Font::glyphs cache warming: create a fresh
Glyph for the name and insert it. -/
def warmOne (s : Font) (name : String) : Font :=
  let id := s.nextId
  { s with
    glyphs := (name, id) :: s.glyphs
    arena := (id, ⟨name, none⟩) :: s.arena
    nextId := id + 1 }

/-- Font::glyphs of src/core/font.rs: when the cache is empty, insert a
fresh Glyph for every contents entry; then return a clone of the cache. -/
def Font.glyphsAll (s : Font) : List (String × Nat) × Font :=
  if s.glyphs.isEmpty then
    let s2 := s.contents.foldl (fun acc kv => warmOne acc kv.1) s
    (s2.glyphs, s2)
  else (s.glyphs, s)

/-- Iter of src/core/font.rs: the snapshot of the index keys still to be
visited. -/
structure Iter : Type where
  keys : List String
deriving DecidableEq, Repr

/-- Iter::new of src/core/font.rs: snapshot the contents keys. -/
def Iter.new (s : Font) : Iter :=
  ⟨s.contents.map Prod.fst⟩

/-- Iter::next of src/core/font.rs: take the next key and resolve it
through the entry-or-insert step on the shared font cache. -/
def Iter.next (s : Font) (it : Iter) : Option Nat × Font × Iter :=
  match it.keys with
  | [] => (none, s, it)
  | name :: rest =>
      match alookup s.glyphs name with
      | some id => (some id, s, ⟨rest⟩)
      | none =>
          let id := s.nextId
          (some id,
            { s with
              glyphs := (name, id) :: s.glyphs
              arena := (id, ⟨name, none⟩) :: s.arena
              nextId := id + 1 },
            ⟨rest⟩)

/-- Point update of one arena slot (writing the RefCell of one Glyph). -/
def arenaSet (s : Font) (id : Nat) (g : GlyphObj) : Font :=
  { s with arena := s.arena.map fun kv => if kv.1 = id then (id, g) else kv }

/-- Glyph::load of src/core/font.rs: return the cached record when the
cell is populated; otherwise resolve the name in the contents of the owning Font, failing with Missing-Attribute carrying the name and the index
file path when absent; then construct the parser and parse the file,
populating the cell only on success. The Bool reports whether parse_glif
was invoked. An id outside the arena (never reachable for a real handle)
reports an Other error. -/
def Glyph.load (mk : Except Error GlifParser) (s : Font) (id : Nat) :
    Except Error GlifData × Font × Bool :=
  match alookup s.arena id with
  | none => (Except.error ⟨ErrorKind.Other, none, none⟩, s, false)
  | some g =>
      match g.cache with
      | some d => (Except.ok d, s, false)
      | none =>
          match alookup s.contents g.name with
          | none =>
              (Except.error
                ⟨ErrorKind.MissingAttribute g.name,
                  some (pathJoin s.root contentsPath), none⟩,
                s, false)
          | some fileName =>
              match mk with
              | Except.error e => (Except.error e, s, false)
              | Except.ok parseGlif =>
                  match parseGlif fileName with
                  | Except.ok d =>
                      (Except.ok d, arenaSet s id { g with cache := some d },
                        true)
                  | Except.error e => (Except.error e, s, true)

/-- Glyph::format of src/core/font.rs: a field accessor, propagating the
load error or projecting the format field of the loaded record. -/
def Glyph.format (mk : Except Error GlifParser) (s : Font) (id : Nat) :
    Except Error String × Font :=
  match Glyph.load mk s id with
  | (Except.ok d, s2, _) => (Except.ok d.format, s2)
  | (Except.error e, s2, _) => (Except.error e, s2)

/-- UfoGleaner of src/core/gleaner.rs: the contents index and the glif
parser. -/
structure UfoGleaner : Type where
  contents : List (String × String)
  glifParser : GlifParser

/-- UfoGleaner::new of src/core/gleaner.rs: parse contents.plist, then
construct the glif parser (mk models GlifParser::new applied to the
provider). -/
def UfoGleaner.new (p : ProviderM)
    (decode : Bytes → Except Error PlistValue)
    (mk : Except Error GlifParser) : Except Error UfoGleaner := do
  let contents ← parse_contents p decode
  let parseGlif ← mk
  pure ⟨contents, parseGlif⟩

/-- UfoGleaner::glean of src/core/gleaner.rs: for every contents entry,
parse the file and keep Some data on success and None on any failure;
the call itself always returns Ok. -/
def UfoGleaner.glean (g : UfoGleaner) :
    Except Error (List (String × Option GlifData)) :=
  Except.ok (g.contents.map fun kv => (kv.1, (g.glifParser kv.2).toOption))

/-- PyFont.__contains__ of src/bindings/py_font.rs: true exactly when
Font::glyph returns Some, with the cache side effect of the call. -/
def PyFont.containsName (s : Font) (name : String) : Bool × Font :=
  let (h, s2) := Font.glyph s name
  (h.isSome, s2)

/-! Helper lemmas about association lists and the warming fold. -/

theorem alookup_none_not_mem {α : Type} [DecidableEq α] {β : Type} {k : α} :
    ∀ {l : List (α × β)}, alookup l k = none → k ∉ l.map Prod.fst
  | [], _ => by simp
  | (k0, v0) :: rest, h => by
      by_cases hk : k0 = k
      · simp [alookup, hk] at h
      · simp only [alookup, if_neg hk] at h
        simp only [List.map_cons, List.mem_cons]
        rintro (rfl | hmem)
        · exact hk rfl
        · exact alookup_none_not_mem h hmem

theorem alookup_map_update_ne {id j : Nat} {g : GlyphObj} (h : j ≠ id)
    (l : List (Nat × GlyphObj)) :
    alookup (l.map fun kv => if kv.1 = id then (id, g) else kv) j
      = alookup l j := by
  induction l with
  | nil => rfl
  | cons kv rest ih =>
      rcases kv with ⟨k0, v0⟩
      simp only [List.map_cons]
      by_cases hk : k0 = id
      · subst hk
        rw [if_pos rfl]
        simp only [alookup]
        rw [if_neg (fun hh => h hh.symm), if_neg (fun hh => h hh.symm)]
        exact ih
      · rw [if_neg hk]
        simp only [alookup]
        by_cases hj : k0 = j
        · rw [if_pos hj, if_pos hj]
        · rw [if_neg hj, if_neg hj]
          exact ih

theorem alookup_map_update_self {id : Nat} {g0 g : GlyphObj}
    (l : List (Nat × GlyphObj)) (h : alookup l id = some g0) :
    alookup (l.map fun kv => if kv.1 = id then (id, g) else kv) id
      = some g := by
  induction l with
  | nil => simp [alookup] at h
  | cons kv rest ih =>
      rcases kv with ⟨k0, v0⟩
      simp only [List.map_cons]
      by_cases hk : k0 = id
      · subst hk
        rw [if_pos rfl]
        simp [alookup]
      · simp only [alookup, if_neg hk] at h
        rw [if_neg hk]
        simp only [alookup]
        rw [if_neg hk]
        exact ih h

/-- Keys of the glyph cache after the warming fold of Font::glyphs. -/
theorem warmFold_glyphs_keys (l : List (String × String)) (s : Font) :
    ((l.foldl (fun acc kv => warmOne acc kv.1) s).glyphs).map Prod.fst
      = (l.map Prod.fst).reverse ++ s.glyphs.map Prod.fst := by
  induction l generalizing s with
  | nil => simp
  | cons kv rest ih =>
      simp only [List.foldl_cons, List.map_cons, List.reverse_cons]
      rw [ih]
      simp [warmOne]

/-- The warming fold of Font::glyphs leaves contents and root unchanged. -/
theorem warmFold_frame (l : List (String × String)) (s : Font) :
    (l.foldl (fun acc kv => warmOne acc kv.1) s).contents = s.contents ∧
    (l.foldl (fun acc kv => warmOne acc kv.1) s).root = s.root := by
  induction l generalizing s with
  | nil => exact ⟨rfl, rfl⟩
  | cons kv rest ih => simpa [warmOne] using ih (warmOne s kv.1)

/-- Every cache cell created by the warming fold is empty. -/
theorem warmFold_cells (l : List (String × String)) (s : Font)
    (h : ∀ e ∈ s.arena, e.2.cache = none) :
    ∀ e ∈ (l.foldl (fun acc kv => warmOne acc kv.1) s).arena,
      e.2.cache = none := by
  induction l generalizing s with
  | nil => exact h
  | cons kv rest ih =>
      refine ih (warmOne s kv.1) ?_
      intro e he
      simp only [warmOne, List.mem_cons] at he
      rcases he with rfl | he
      · rfl
      · exact h e he

/-- Font::glyphs is idempotent: a second call returns the cache produced
by the first and leaves the state unchanged. -/
theorem glyphsAll_idem (s : Font) :
    Font.glyphsAll (Font.glyphsAll s).2 =
      ((Font.glyphsAll s).1, (Font.glyphsAll s).2) := by
  rcases hg : s.glyphs with _ | ⟨kv, rest⟩
  · rcases hc : s.contents with _ | ⟨c0, cs⟩
    · simp [Font.glyphsAll, hg, hc]
    · have hempty : s.glyphs.isEmpty = true := by simp [hg]
      simp only [Font.glyphsAll, hempty, if_pos, hc]
      set s2 := (c0 :: cs).foldl (fun acc kv => warmOne acc kv.1) s with hs2
      have hkeys := warmFold_glyphs_keys (c0 :: cs) s
      rw [← hs2, hg] at hkeys
      have hne : s2.glyphs ≠ [] := by
        intro hnil
        rw [hnil] at hkeys
        simp at hkeys
      have : s2.glyphs.isEmpty = false := by
        rcases h2 : s2.glyphs with _ | _
        · exact absurd h2 hne
        · simp [h2]
      simp [this]
  · have hempty : s.glyphs.isEmpty = false := by simp [hg]
    simp [Font.glyphsAll, hempty]

/-! Concrete values used by witnesses and counterexamples. -/

/-- Sample glyph record used by concrete parsers in witnesses. -/
def sampleGlif : GlifData :=
  ⟨"2", none, none, [65], none, none, [], [], none, none⟩

/-- Sample parse error used by concrete parsers in witnesses. -/
def parseErrW : Error := ⟨ErrorKind.Xml, none, some "malformed glif"⟩

/-- Font over an empty index, as Font::new builds it from an empty
dictionary. -/
def fontE : Font := ⟨"/r", [], [], [], 0⟩

/-! C3. -/

/-- C3 counterexample: MockProvider::read on an absent path fails with
the generic Io kind, not the distinguished Not-Found kind, refuting the
claim that both File Access Capability variants signal Not-Found for an
absent path. -/
theorem c3_counterexample :
    MockProvider.read [] "missing.txt" =
      Except.error ⟨ErrorKind.Io, none, some "file not found: missing.txt"⟩ ∧
    ErrorKind.Io ≠ ErrorKind.FileNotFound :=
  ⟨rfl, by decide⟩

/-- C3 (amended): FileProvider::read on an absent path fails with the
distinguished Not-Found kind and with the generic Io kind for any other
read failure, while MockProvider::read fails with the generic Io kind
for an absent path. -/
theorem c3_read_amended (fs : List (String × FsNode)) (root rel : String)
    (files : List (String × Bytes)) (rel2 : String)
    (habs : alookup fs (pathJoin root rel) = none)
    (hmock : alookup files rel2 = none) :
    FileProvider.read fs root rel =
      Except.error ⟨ErrorKind.FileNotFound, none, none⟩ ∧
    (∀ fs2 root2 rel3,
      alookup fs2 (pathJoin root2 rel3) = some FsNode.unreadable →
      FileProvider.read fs2 root2 rel3 =
        Except.error ⟨ErrorKind.Io, none, none⟩) ∧
    MockProvider.read files rel2 =
      Except.error ⟨ErrorKind.Io, none, some ("file not found: " ++ rel2)⟩ := by
  refine ⟨?_, ?_, ?_⟩
  · simp [FileProvider.read, habs, ioErrorToError]
  · intro fs2 root2 rel3 h2
    simp [FileProvider.read, h2, ioErrorToError]
  · simp [MockProvider.read, hmock]

/-- C3 witness: the amended statement at concrete providers with empty
file tables. -/
theorem c3_read_amended_witness :
    FileProvider.read [] "/r" "x" =
      Except.error ⟨ErrorKind.FileNotFound, none, none⟩ ∧
    MockProvider.read [] "y" =
      Except.error ⟨ErrorKind.Io, none, some "file not found: y"⟩ := by
  have h := c3_read_amended [] "/r" "x" [] "y" rfl rfl
  exact ⟨h.1, h.2.2⟩

/-! C5. -/

/-- C5: glean always returns Ok; the returned map has exactly the index
keys; an entry whose file parses successfully maps to the record and an
entry whose parse fails maps to the absence marker, independently of the
other entries. -/
theorem c5_glean (g : UfoGleaner) :
    ∃ m, g.glean = Except.ok m ∧
      m.map Prod.fst = g.contents.map Prod.fst ∧
      (∀ n fileName, (n, fileName) ∈ g.contents →
        (∀ d, g.glifParser fileName = Except.ok d → (n, some d) ∈ m) ∧
        (∀ e, g.glifParser fileName = Except.error e → (n, none) ∈ m)) ∧
      (∀ x, x ∈ m → ∃ fileName, (x.1, fileName) ∈ g.contents ∧
        x.2 = (g.glifParser fileName).toOption) := by
  refine ⟨_, rfl, ?_, ?_, ?_⟩
  · rw [List.map_map]
    rfl
  · intro n fileName hmem
    constructor
    · intro d hd
      refine List.mem_map.mpr ⟨(n, fileName), hmem, ?_⟩
      simp [hd, Except.toOption]
    · intro e he
      refine List.mem_map.mpr ⟨(n, fileName), hmem, ?_⟩
      simp [he, Except.toOption]
  · intro x hx
    obtain ⟨⟨n, fileName⟩, hmem, hfx⟩ := List.mem_map.mp hx
    exact ⟨fileName, by rw [← hfx]; exact hmem, by rw [← hfx]⟩

/-- Gleaner used by the C5 witness: one well-formed and one corrupt
entry. -/
def gW : UfoGleaner :=
  ⟨[("a", "A.glif"), ("bad", "B.glif")],
    fun fileName =>
      if fileName = "A.glif" then Except.ok sampleGlif
      else Except.error parseErrW⟩

/-- C5 witness: at the concrete gleaner, the corrupt entry maps to the
absence marker and the valid one to its record, in one Ok result. -/
theorem c5_glean_witness :
    ∃ m, UfoGleaner.glean gW = Except.ok m ∧
      ("a", some sampleGlif) ∈ m ∧ ("bad", (none : Option GlifData)) ∈ m := by
  obtain ⟨m, hok, _, hmem, _⟩ := c5_glean gW
  refine ⟨m, hok, ?_, ?_⟩
  · exact (hmem "a" "A.glif" (by simp [gW])).1 sampleGlif rfl
  · exact (hmem "bad" "B.glif" (by simp [gW])).2 parseErrW rfl

/-! C7. -/

theorem stringEntry_eq_some {a : String × PlistValue} {k s : String} :
    stringEntry a = some (k, s) ↔ a = (k, PlistValue.string s) := by
  obtain ⟨k0, v0⟩ := a
  cases v0 <;> simp [stringEntry]

/-- C7: when the index decodes to a dictionary, parse_contents succeeds
and its result holds exactly the string-valued entries; non-string
entries are dropped without an error. -/
theorem c7_string_filter (p : ProviderM)
    (decode : Bytes → Except Error PlistValue) (data : Bytes)
    (entries : List (String × PlistValue))
    (hread : p.read contentsPath = Except.ok data)
    (hdec : decode data = Except.ok (PlistValue.dict entries)) :
    ∃ res, parse_contents p decode = Except.ok res ∧
      ∀ k s, (k, s) ∈ res ↔ (k, PlistValue.string s) ∈ entries := by
  refine ⟨entries.filterMap stringEntry, ?_, ?_⟩
  · unfold parse_contents parse_plist
    rw [hread]
    show (decode data >>= fun plistValue =>
      match plistValue with
      | PlistValue.dict entries => pure (entries.filterMap stringEntry)
      | _ => Except.error ⟨ErrorKind.Plist, some contentsPath,
          some "contents.plist is not a dictionary"⟩) = _
    rw [hdec]
    rfl
  · intro k s
    rw [List.mem_filterMap]
    constructor
    · rintro ⟨a, ha, hs⟩
      rwa [stringEntry_eq_some.mp hs] at ha
    · intro hmem
      exact ⟨(k, PlistValue.string s), hmem, rfl⟩

/-- Provider and decoder used by the C7 witness. -/
def pW7 : ProviderM := MockProvider.provider [(contentsPath, [0])]

/-- Decoder used by the C7 witness: a dictionary with one string-valued
and one integer-valued entry. -/
def decodeW7 : Bytes → Except Error PlistValue := fun _ =>
  Except.ok (PlistValue.dict
    [("a", PlistValue.string "A.glif"), ("ignored", PlistValue.integer 123)])

/-- C7 witness: the string-valued entry is kept and the integer-valued
entry is dropped without an error. -/
theorem c7_string_filter_witness :
    ∃ res, parse_contents pW7 decodeW7 = Except.ok res ∧
      ("a", "A.glif") ∈ res ∧ ∀ x, ("ignored", x) ∉ res := by
  obtain ⟨res, hok, hiff⟩ := c7_string_filter pW7 decodeW7 [0]
    [("a", PlistValue.string "A.glif"), ("ignored", PlistValue.integer 123)]
    rfl rfl
  refine ⟨res, hok, (hiff "a" "A.glif").mpr (by simp), ?_⟩
  intro x hx
  have := (hiff "ignored" x).mp hx
  simp at this

/-! C1. -/

/-- Decoder used by the C1 concrete package: a two-entry dictionary. -/
def c1Decode : Bytes → Except Error PlistValue := fun _ =>
  Except.ok (PlistValue.dict
    [("a", PlistValue.string "A.glif"), ("b", PlistValue.string "B.glif")])

/-- Provider used by the C1 concrete package. -/
def c1Provider : ProviderM := MockProvider.provider [(contentsPath, [0])]

/-- The Font Font::new builds from the C1 package. -/
def c1Font : Font := ⟨"", [("a", "A.glif"), ("b", "B.glif")], [], [], 0⟩

/-- C1 counterexample: on a Font reached through Font::new with a
two-entry index, a single prior glyph lookup leaves the cache non-empty,
and the first glyphs call then returns one handle instead of two, so
warming does not happen regardless of prior lookups. -/
theorem c1_counterexample :
    Font.new c1Provider c1Decode = Except.ok c1Font ∧
    c1Font.contents.length = 2 ∧
    ((Font.glyphsAll (Font.glyph c1Font "a").2).1).length = 1 :=
  ⟨rfl, rfl, rfl⟩

/-- C1 (amended): when no handle exists yet (empty cache and arena, as
right after Font::new), the first glyphs call creates and caches a handle
for every Index entry, returning exactly N handles with every record cell
empty (no parsing forced), and a second call returns the already-warmed
cache unchanged; but when a prior glyph lookup has populated the cache,
glyphs returns the existing cache as-is instead of warming it. -/
theorem c1_glyphsAll_amended (s : Font) (hg : s.glyphs = [])
    (ha : s.arena = []) :
    ((Font.glyphsAll s).1).length = s.contents.length ∧
    ((Font.glyphsAll s).1).map Prod.fst = (s.contents.map Prod.fst).reverse ∧
    (Font.glyphsAll s).2.glyphs = (Font.glyphsAll s).1 ∧
    (∀ e ∈ (Font.glyphsAll s).2.arena, e.2.cache = none) ∧
    Font.glyphsAll (Font.glyphsAll s).2 =
      ((Font.glyphsAll s).1, (Font.glyphsAll s).2) ∧
    (∀ t : Font, t.glyphs ≠ [] → Font.glyphsAll t = (t.glyphs, t)) := by
  have hempty : s.glyphs.isEmpty = true := by simp [hg]
  have h1 : Font.glyphsAll s =
      ((s.contents.foldl (fun acc kv => warmOne acc kv.1) s).glyphs,
        s.contents.foldl (fun acc kv => warmOne acc kv.1) s) := by
    simp [Font.glyphsAll, hempty]
  have hkeys := warmFold_glyphs_keys s.contents s
  rw [hg] at hkeys
  simp only [List.map_nil, List.append_nil] at hkeys
  refine ⟨?_, ?_, ?_, ?_, glyphsAll_idem s, ?_⟩
  · rw [h1]
    have := congrArg List.length hkeys
    simpa using this
  · rw [h1]
    exact hkeys
  · rw [h1]
  · rw [h1]
    exact warmFold_cells s.contents s (by rw [ha]; intro e he; cases he)
  · intro t ht
    have : t.glyphs.isEmpty = false := by
      rcases h2 : t.glyphs with _ | _
      · exact absurd h2 ht
      · simp [h2]
    simp [Font.glyphsAll, this]

/-- C1 witness: the amended warming statement at the concrete two-entry
font. -/
theorem c1_glyphsAll_amended_witness :
    ((Font.glyphsAll c1Font).1).length = 2 ∧
    ((Font.glyphsAll c1Font).1).map Prod.fst = ["b", "a"] := by
  have h := c1_glyphsAll_amended c1Font rfl rfl
  exact ⟨h.1, h.2.1⟩

/-! C2. -/

/-- C2: Font::glyph always returns a handle, even for a name absent from
the Index, and for such a name the first field accessor on the handle
fails with a Missing-Attribute error carrying the name and the index
file path. -/
theorem c2_glyph_missing (s : Font) (name : String)
    (mk : Except Error GlifParser)
    (hidx : alookup s.contents name = none)
    (hcell : ∀ id, alookup s.glyphs name = some id →
      ∃ g, alookup s.arena id = some g ∧ g.name = name ∧ g.cache = none) :
    ∃ id s2, Font.glyph s name = (some id, s2) ∧
      Glyph.format mk s2 id =
        (Except.error ⟨ErrorKind.MissingAttribute name,
          some (pathJoin s.root contentsPath), none⟩, s2) := by
  cases hglyphs : alookup s.glyphs name with
  | some id =>
      obtain ⟨g, hg, hname, hcache⟩ := hcell id hglyphs
      refine ⟨id, s, ?_, ?_⟩
      · simp [Font.glyph, hglyphs]
      · have hload : Glyph.load mk s id =
            (Except.error ⟨ErrorKind.MissingAttribute name,
              some (pathJoin s.root contentsPath), none⟩, s, false) := by
          simp [Glyph.load, hg, hcache, hname, hidx]
        simp [Glyph.format, hload]
  | none =>
      refine ⟨s.nextId, (Font.glyph s name).2, ?_, ?_⟩
      · simp [Font.glyph, hglyphs]
      · simp [Glyph.format, Font.glyph, hglyphs, Glyph.load, alookup, hidx]

/-- C2 witness: scenario E on an empty-index font: glyph for the absent
name Z hands back a handle whose first accessor fails with
Missing-Attribute carrying Z and the index path. -/
theorem c2_glyph_missing_witness :
    ∃ id s2, Font.glyph fontE "Z" = (some id, s2) ∧
      Glyph.format (Except.error ⟨ErrorKind.Other, none, none⟩) s2 id =
        (Except.error ⟨ErrorKind.MissingAttribute "Z",
          some (pathJoin fontE.root contentsPath), none⟩, s2) :=
  c2_glyph_missing fontE "Z" (Except.error ⟨ErrorKind.Other, none, none⟩)
    rfl (fun _ h => Option.noConfusion h)

/-! C6. -/

/-- C6: when the index file decodes to a non-dictionary top-level value,
Font construction and Batch Reader construction both fail with the
structural Plist error carrying the index path, and both constructions
depend only on the index-path read and the root, so no glyph file is
touched. -/
theorem c6_nondict (p : ProviderM) (decode : Bytes → Except Error PlistValue)
    (mk : Except Error GlifParser) (data : Bytes) (v : PlistValue)
    (hread : p.read contentsPath = Except.ok data)
    (hdec : decode data = Except.ok v) (hnd : v.isDict = false) :
    Font.new p decode = Except.error ⟨ErrorKind.Plist, some contentsPath,
      some "contents.plist is not a dictionary"⟩ ∧
    UfoGleaner.new p decode mk = Except.error ⟨ErrorKind.Plist,
      some contentsPath, some "contents.plist is not a dictionary"⟩ ∧
    (∀ p2 : ProviderM, p2.root = p.root →
      p2.read contentsPath = p.read contentsPath →
      Font.new p2 decode = Font.new p decode ∧
      UfoGleaner.new p2 decode mk = UfoGleaner.new p decode mk) := by
  have hpc : parse_contents p decode = Except.error ⟨ErrorKind.Plist,
      some contentsPath, some "contents.plist is not a dictionary"⟩ := by
    unfold parse_contents parse_plist
    rw [hread]
    show (decode data >>= fun plistValue => match plistValue with
      | PlistValue.dict entries => pure (entries.filterMap stringEntry)
      | _ => Except.error ⟨ErrorKind.Plist, some contentsPath,
          some "contents.plist is not a dictionary"⟩) = _
    rw [hdec]
    cases v with
    | dict entries => simp [PlistValue.isDict] at hnd
    | string s0 => rfl
    | integer n => rfl
    | other => rfl
  refine ⟨?_, ?_, ?_⟩
  · unfold Font.new
    rw [hpc]
    rfl
  · unfold UfoGleaner.new
    rw [hpc]
    rfl
  · intro p2 hroot hread2
    constructor
    · unfold Font.new parse_contents parse_plist
      rw [hroot, hread2]
    · unfold UfoGleaner.new parse_contents parse_plist
      rw [hread2]

/-- Provider used by the C6 witness. -/
def pC6 : ProviderM := MockProvider.provider [(contentsPath, [1])]

/-- Decoder used by the C6 witness: decodes to a string, not a
dictionary. -/
def decodeC6 : Bytes → Except Error PlistValue := fun _ =>
  Except.ok (PlistValue.string "not a dict")

/-- C6 witness: scenario D at a concrete provider and decoder. -/
theorem c6_nondict_witness :
    Font.new pC6 decodeC6 = Except.error ⟨ErrorKind.Plist, some contentsPath,
      some "contents.plist is not a dictionary"⟩ ∧
    UfoGleaner.new pC6 decodeC6 (Except.error ⟨ErrorKind.Other, none, none⟩) =
      Except.error ⟨ErrorKind.Plist, some contentsPath,
        some "contents.plist is not a dictionary"⟩ := by
  have h := c6_nondict pC6 decodeC6
    (Except.error ⟨ErrorKind.Other, none, none⟩) [1]
    (PlistValue.string "not a dict") rfl rfl rfl
  exact ⟨h.1, h.2.1⟩

/-! C10. -/

/-- C10: the Python membership test returns true for every name, present
in the Index or not, and afterwards the cache holds a handle for the
name (the fresh one when the name was not cached before). -/
theorem c10_contains (s : Font) (name : String) :
    (PyFont.containsName s name).1 = true ∧
    (∃ id, alookup (PyFont.containsName s name).2.glyphs name = some id) ∧
    (alookup s.glyphs name = none →
      alookup (PyFont.containsName s name).2.glyphs name = some s.nextId) := by
  cases h : alookup s.glyphs name with
  | some id =>
      refine ⟨?_, ⟨id, ?_⟩, ?_⟩
      · simp [PyFont.containsName, Font.glyph, h]
      · simp [PyFont.containsName, Font.glyph, h]
      · intro hnone
        simp [h] at hnone
  | none =>
      refine ⟨?_, ⟨s.nextId, ?_⟩, fun _ => ?_⟩
      · simp [PyFont.containsName, Font.glyph, h]
      · simp [PyFont.containsName, Font.glyph, h, alookup]
      · simp [PyFont.containsName, Font.glyph, h, alookup]

/-- C10 witness: the membership test at the empty-index font and an
absent name. -/
theorem c10_contains_witness :
    (PyFont.containsName fontE "Z").1 = true ∧
    alookup (PyFont.containsName fontE "Z").2.glyphs "Z" = some 0 := by
  have h := c10_contains fontE "Z"
  exact ⟨h.1, h.2.2 rfl⟩

/-! Branch analysis of Glyph::load shared by the caching and frame
theorems. -/

/-- Load on a populated cache cell returns the cached record without
touching the state or the parser. -/
theorem load_cached (mk : Except Error GlifParser) (s : Font) (id : Nat)
    (g : GlyphObj) (d : GlifData) (hg : alookup s.arena id = some g)
    (hc : g.cache = some d) :
    Glyph.load mk s id = (Except.ok d, s, false) := by
  simp [Glyph.load, hg, hc]

/-- Exhaustive description of the outcomes of Glyph::load. -/
theorem load_cases (mk : Except Error GlifParser) (s : Font) (id : Nat) :
    (alookup s.arena id = none ∧
      Glyph.load mk s id =
        (Except.error ⟨ErrorKind.Other, none, none⟩, s, false)) ∨
    (∃ g d, alookup s.arena id = some g ∧ g.cache = some d ∧
      Glyph.load mk s id = (Except.ok d, s, false)) ∨
    (∃ g, alookup s.arena id = some g ∧ g.cache = none ∧
      alookup s.contents g.name = none ∧
      Glyph.load mk s id =
        (Except.error ⟨ErrorKind.MissingAttribute g.name,
          some (pathJoin s.root contentsPath), none⟩, s, false)) ∨
    (∃ g fileName e, alookup s.arena id = some g ∧ g.cache = none ∧
      alookup s.contents g.name = some fileName ∧ mk = Except.error e ∧
      Glyph.load mk s id = (Except.error e, s, false)) ∨
    (∃ g fileName p, alookup s.arena id = some g ∧ g.cache = none ∧
      alookup s.contents g.name = some fileName ∧ mk = Except.ok p ∧
      ((∃ d, p fileName = Except.ok d ∧
        Glyph.load mk s id =
          (Except.ok d, arenaSet s id { g with cache := some d }, true)) ∨
       (∃ e, p fileName = Except.error e ∧
        Glyph.load mk s id = (Except.error e, s, true)))) := by
  cases harena : alookup s.arena id with
  | none => exact Or.inl ⟨rfl, by simp [Glyph.load, harena]⟩
  | some g =>
    cases hcache : g.cache with
    | some d =>
        exact Or.inr (Or.inl ⟨g, d, rfl, hcache,
          by simp [Glyph.load, harena, hcache]⟩)
    | none =>
      cases hfile : alookup s.contents g.name with
      | none =>
          exact Or.inr (Or.inr (Or.inl ⟨g, rfl, hcache, hfile,
            by simp [Glyph.load, harena, hcache, hfile]⟩))
      | some fileName =>
        cases mk with
        | error e =>
            exact Or.inr (Or.inr (Or.inr (Or.inl ⟨g, fileName, e, rfl,
              hcache, hfile, rfl,
              by simp [Glyph.load, harena, hcache, hfile]⟩)))
        | ok p =>
          cases hp : p fileName with
          | ok d =>
              exact Or.inr (Or.inr (Or.inr (Or.inr ⟨g, fileName, p, rfl,
                hcache, hfile, rfl, Or.inl ⟨d, hp,
                  by simp [Glyph.load, harena, hcache, hfile, hp]⟩⟩)))
          | error e =>
              exact Or.inr (Or.inr (Or.inr (Or.inr ⟨g, fileName, p, rfl,
                hcache, hfile, rfl, Or.inr ⟨e, hp,
                  by simp [Glyph.load, harena, hcache, hfile, hp]⟩⟩)))

/-! C4. -/

/-- C4: across any accesses on one handle, the file is parsed at most
once successfully: a successful load populates the cache cell, and every
later load returns the cached record with any parser, without invoking
it; a failed load leaves the state (hence the cell) unchanged, and a
later access with a succeeding parser re-attempts and parses. -/
theorem c4_load_once (mk mk2 : Except Error GlifParser) (s : Font)
    (id : Nat) :
    (∀ d, (Glyph.load mk s id).1 = Except.ok d →
      ∃ g2, alookup (Glyph.load mk s id).2.1.arena id = some g2 ∧
        g2.cache = some d) ∧
    (∀ d, (Glyph.load mk s id).1 = Except.ok d →
      Glyph.load mk2 (Glyph.load mk s id).2.1 id =
        (Except.ok d, (Glyph.load mk s id).2.1, false)) ∧
    (∀ e, (Glyph.load mk s id).1 = Except.error e →
      (Glyph.load mk s id).2.1 = s) ∧
    (∀ g fileName p2 d2,
      alookup s.arena id = some g → g.cache = none →
      alookup s.contents g.name = some fileName →
      mk2 = Except.ok p2 → p2 fileName = Except.ok d2 →
      Glyph.load mk2 s id =
        (Except.ok d2, arenaSet s id { g with cache := some d2 }, true)) := by
  refine ⟨?_, ?_, ?_, ?_⟩
  · intro d hd
    rcases load_cases mk s id with ⟨_, hload⟩ | ⟨g, d0, hg, hc, hload⟩ |
      ⟨g, _, _, _, hload⟩ | ⟨g, f, e, _, _, _, _, hload⟩ |
      ⟨g, f, p, hg, hc, hf, hmk, ⟨d0, hp, hload⟩ | ⟨e, hp, hload⟩⟩
    · rw [hload] at hd; simp at hd
    · rw [hload] at hd
      simp at hd
      subst hd
      rw [hload]
      exact ⟨g, hg, hc⟩
    · rw [hload] at hd; simp at hd
    · rw [hload] at hd; simp at hd
    · rw [hload] at hd
      simp at hd
      subst hd
      rw [hload]
      exact ⟨{ g with cache := some d0 },
        alookup_map_update_self s.arena hg, rfl⟩
    · rw [hload] at hd; simp at hd
  · intro d hd
    rcases load_cases mk s id with ⟨_, hload⟩ | ⟨g, d0, hg, hc, hload⟩ |
      ⟨g, _, _, _, hload⟩ | ⟨g, f, e, _, _, _, _, hload⟩ |
      ⟨g, f, p, hg, hc, hf, hmk, ⟨d0, hp, hload⟩ | ⟨e, hp, hload⟩⟩
    · rw [hload] at hd; simp at hd
    · rw [hload] at hd
      simp at hd
      subst hd
      rw [hload]
      exact load_cached mk2 s id g d0 hg hc
    · rw [hload] at hd; simp at hd
    · rw [hload] at hd; simp at hd
    · rw [hload] at hd
      simp at hd
      subst hd
      rw [hload]
      exact load_cached mk2 (arenaSet s id { g with cache := some d0 }) id
        { g with cache := some d0 } d0
        (alookup_map_update_self s.arena hg) rfl
    · rw [hload] at hd; simp at hd
  · intro e he
    rcases load_cases mk s id with ⟨_, hload⟩ | ⟨g, d0, hg, hc, hload⟩ |
      ⟨g, _, _, _, hload⟩ | ⟨g, f, e0, _, _, _, _, hload⟩ |
      ⟨g, f, p, hg, hc, hf, hmk, ⟨d0, hp, hload⟩ | ⟨e0, hp, hload⟩⟩
    · rw [hload]
    · rw [hload] at he; simp at he
    · rw [hload]
    · rw [hload]
    · rw [hload] at he; simp at he
    · rw [hload]
  · intro g fileName p2 d2 hg hc hf hmk2 hp2
    subst hmk2
    simp [Glyph.load, hg, hc, hf, hp2]

/-- State used by the C4 and C9 witnesses: a one-entry font with one
handle created. -/
def sW : Font := (Font.glyph ⟨"/r", [("a", "A.glif")], [], [], 0⟩ "a").2

/-- Parser used by the C4 and C9 witnesses: always succeeds with the
sample record. -/
def mkOkW : Except Error GlifParser :=
  Except.ok fun _ => Except.ok sampleGlif

/-- C4 witness: after one successful load of the concrete handle, a
second load returns the cached record with state unchanged and the
parser not invoked. -/
theorem c4_load_once_witness :
    Glyph.load mkOkW (Glyph.load mkOkW sW 0).2.1 0 =
      (Except.ok sampleGlif, (Glyph.load mkOkW sW 0).2.1, false) :=
  (c4_load_once mkOkW mkOkW sW 0).2.1 sampleGlif rfl

/-! C9. -/

/-- C9: a load mutates at most the arena cell of the loaded handle; the
contents index, the name-to-handle cache, the root and the id supply are
unchanged, and every other arena slot is untouched, whether the load
succeeds or fails. -/
theorem c9_load_frame (mk : Except Error GlifParser) (s : Font)
    (id : Nat) :
    (Glyph.load mk s id).2.1.contents = s.contents ∧
    (Glyph.load mk s id).2.1.glyphs = s.glyphs ∧
    (Glyph.load mk s id).2.1.root = s.root ∧
    (Glyph.load mk s id).2.1.nextId = s.nextId ∧
    ∀ j, j ≠ id →
      alookup (Glyph.load mk s id).2.1.arena j = alookup s.arena j := by
  rcases load_cases mk s id with ⟨_, hload⟩ | ⟨g, d0, hg, hc, hload⟩ |
    ⟨g, _, _, _, hload⟩ | ⟨g, f, e0, _, _, _, _, hload⟩ |
    ⟨g, f, p, hg, hc, hf, hmk, ⟨d0, hp, hload⟩ | ⟨e0, hp, hload⟩⟩ <;>
    rw [hload]
  · exact ⟨rfl, rfl, rfl, rfl, fun j hj => rfl⟩
  · exact ⟨rfl, rfl, rfl, rfl, fun j hj => rfl⟩
  · exact ⟨rfl, rfl, rfl, rfl, fun j hj => rfl⟩
  · exact ⟨rfl, rfl, rfl, rfl, fun j hj => rfl⟩
  · exact ⟨rfl, rfl, rfl, rfl,
      fun j hj => alookup_map_update_ne hj s.arena⟩
  · exact ⟨rfl, rfl, rfl, rfl, fun j hj => rfl⟩

/-- C9 witness: the frame facts at the concrete one-entry font, for the
arena slot the load does not touch. -/
theorem c9_load_frame_witness :
    (Glyph.load mkOkW sW 0).2.1.contents = sW.contents ∧
    (Glyph.load mkOkW sW 0).2.1.glyphs = sW.glyphs ∧
    alookup (Glyph.load mkOkW sW 0).2.1.arena 1 = alookup sW.arena 1 := by
  have h := c9_load_frame mkOkW sW 0
  exact ⟨h.1, h.2.1, h.2.2.2.2 1 (by decide)⟩

/-! C8. -/

/-- Keys of the name-to-handle cache are pairwise distinct: at most one
handle per name. -/
def KeysNodup (s : Font) : Prop := (s.glyphs.map Prod.fst).Nodup

/-- C8: every way of obtaining a handle resolves through the one shared
cache entry: a second glyph call returns the same handle and state, an
iteration step is exactly a glyph call on the next snapshotted name, and
glyph, iteration and cache warming all preserve the at-most-one-handle-
per-name invariant. -/
theorem c8_identity (s : Font) (name : String) :
    Font.glyph (Font.glyph s name).2 name = Font.glyph s name ∧
    (∀ rest : List String, Iter.next s ⟨name :: rest⟩ =
      ((Font.glyph s name).1, (Font.glyph s name).2, ⟨rest⟩)) ∧
    (KeysNodup s → KeysNodup (Font.glyph s name).2) ∧
    (∀ it : Iter, KeysNodup s → KeysNodup (Iter.next s it).2.1) ∧
    (KeysNodup s → (s.contents.map Prod.fst).Nodup →
      KeysNodup (Font.glyphsAll s).2) := by
  refine ⟨?_, ?_, ?_, ?_, ?_⟩
  · cases h : alookup s.glyphs name with
    | some id => simp [Font.glyph, h]
    | none => simp [Font.glyph, h, alookup]
  · intro rest
    cases h : alookup s.glyphs name with
    | some id => simp [Iter.next, Font.glyph, h]
    | none => simp [Iter.next, Font.glyph, h]
  · intro hnd
    cases h : alookup s.glyphs name with
    | some id => simpa [Font.glyph, h] using hnd
    | none =>
        simp only [Font.glyph, h, KeysNodup, List.map_cons]
        exact List.nodup_cons.mpr ⟨alookup_none_not_mem h, hnd⟩
  · intro it hnd
    rcases it with ⟨keys⟩
    cases keys with
    | nil => simpa [Iter.next] using hnd
    | cons n rest =>
        cases h : alookup s.glyphs n with
        | some id => simpa [Iter.next, h] using hnd
        | none =>
            simp only [Iter.next, h, KeysNodup, List.map_cons]
            exact List.nodup_cons.mpr ⟨alookup_none_not_mem h, hnd⟩
  · intro hnd hcnd
    cases hglyphs : s.glyphs with
    | cons kv rest =>
        have hempty : s.glyphs.isEmpty = false := by simp [hglyphs]
        simpa [Font.glyphsAll, hempty] using hnd
    | nil =>
        have hempty : s.glyphs.isEmpty = true := by simp [hglyphs]
        have h1 : (Font.glyphsAll s).2 =
            s.contents.foldl (fun acc kv => warmOne acc kv.1) s := by
          simp [Font.glyphsAll, hempty]
        rw [KeysNodup, h1, warmFold_glyphs_keys, hglyphs]
        simpa using List.nodup_reverse.mpr hcnd
  
/-- C8 witness: the identity and invariant facts at the concrete
empty-index font. -/
theorem c8_identity_witness :
    Font.glyph (Font.glyph fontE "a").2 "a" = Font.glyph fontE "a" ∧
    KeysNodup (Font.glyph fontE "a").2 := by
  have h := c8_identity fontE "a"
  exact ⟨h.1, h.2.2.1 (by simp [KeysNodup, fontE])⟩

end UfoGleanerModel
